import Mathlib

/-!
Verification of the anjani bot dispatch core against its specification.

The Python sources under `anjani/` are shallowly embedded: pure fragments
become Lean functions, in-place mutation becomes explicit state passing,
and raising an exception becomes returning `Except.error`.  Python `str`
values are Lean `String`s; the string primitives the code relies on
(`str.lower`, `str.replace`, `str.strip`, `int(...)`, substring tests)
are re-implemented over the character list so that every definition
evaluates by `decide`.
-/

deriving instance DecidableEq for Except

namespace Anjani

/-! ## Python string primitives -/

/-- Model of Python `str.lower` (the code only lowers ASCII command tokens). -/
def pyLower (s : String) : String :=
  ⟨s.data.map Char.toLower⟩

/-- Characters removed by Python `str.strip` with no argument. -/
def trimChars (l : List Char) : List Char :=
  ((l.dropWhile Char.isWhitespace).reverse.dropWhile Char.isWhitespace).reverse

/-- Model of Python `str.strip()`: drop leading and trailing whitespace. -/
def pyStrip (s : String) : String :=
  ⟨trimChars s.data⟩

/-- Model of Python `str.join` for a single-space separator. -/
def pyJoinSpace (parts : List String) : String :=
  String.intercalate " " parts

/-- One step of Python `str.replace`: scan left to right, replacing each
non-overlapping occurrence of `pat`.  Fuel-indexed so that it is
structurally recursive (the wrapper supplies `l.length` fuel, which is
always enough because each step consumes at least one character). -/
def replaceFuel (pat rep : List Char) : Nat → List Char → List Char
  | 0, l => l
  | _ + 1, [] => []
  | fuel + 1, c :: rest =>
    if pat.isPrefixOf (c :: rest) ∧ pat ≠ [] then
      rep ++ replaceFuel pat rep fuel ((c :: rest).drop pat.length)
    else
      c :: replaceFuel pat rep fuel rest

/-- Model of Python `str.replace` (all occurrences, left to right). -/
def pyReplace (s pat rep : String) : String :=
  ⟨replaceFuel pat.data rep.data s.data.length s.data⟩

/-- Substring test over character lists, for Python `pat in s`. -/
def containsSub (pat : List Char) : List Char → Bool
  | [] => pat.isPrefixOf []
  | c :: rest => pat.isPrefixOf (c :: rest) || containsSub pat rest

/-- Model of the Python `in` substring test on strings. -/
def pyContains (s pat : String) : Bool :=
  containsSub pat.data s.data

/-- Decimal value of one ASCII digit. -/
def digitVal (c : Char) : Option Nat :=
  if 48 ≤ c.toNat ∧ c.toNat ≤ 57 then some (c.toNat - 48) else none

/-- Value of a nonempty all-digit character list. -/
def digitsVal : List Char → Option Nat
  | [] => none
  | [c] => digitVal c
  | c :: rest =>
    match digitVal c, digitsVal rest with
    | some d, some n => some (d * 10 ^ rest.length + n)
    | _, _ => none

/-- Model of Python `int(token)` on plain decimal tokens (an optional
leading minus sign followed by digits); any other token raises
`ValueError`, which the model reports as `none`. -/
def pyToInt? (s : String) : Option Int :=
  match s.data with
  | '-' :: rest => (digitsVal rest).map (fun n => -(n : Int))
  | l => (digitsVal l).map (fun n => (n : Int))

/-! ## Exceptions and runtime values

`PyExc` covers the exceptions the converter pipeline can raise or
return: `anjani.error.BadBoolArgument`, `ConversionError`, `BadArgument`
(carrying the offending parameter and command names), plus the builtin
`IndexError`, `ValueError` and `TypeError`.  `PyVal` is the value
universe handler arguments live in; `PyVal.none` is Python `None`.
Note that `transform` can hand an exception OBJECT to the handler as an
ordinary value (`_get_default(param, err)`), which is `PyVal.exc`. -/

inductive PyExc where
  | badBool (token : String)
  | conversionError
  | badArgument (paramName : String) (cmdName : String)
  | indexError
  | valueError (token : String)
  | typeError
deriving DecidableEq, Repr

inductive PyVal where
  | str (s : String)
  | int (n : Int)
  | bool (b : Bool)
  | none
  | exc (e : PyExc)
deriving DecidableEq, Repr

/-! ## Parameter model (`inspect.Parameter`) -/

inductive ParamKind where
  | positionalOrKeyword
  | positionalOnly
  | keywordOnly
  | varPositional
  | varKeyword
deriving DecidableEq, Repr

/-- A parameter annotation as `transform` case-splits on it:
`empty` is an unannotated parameter; `unionTy` is a two-alternative
`Optional`/`Union` wrapper (`firstIsNone` records the literal
`__args__[0] is None` test); `funcTy` is a plain `FunctionType`/`partial`
converter (line 184 of `converter.py`); `converterTy` is a `Converter`
subclass (the pyrogram entity converters, abstracted to the resolving
function they compute after the network round trips, since the client is
outside this embedding); `boolTy` is `bool`; `callTy` is any other
callable hit by the final `return converter(arg)` (line 209), e.g. the
class `int`. -/
inductive Ann where
  | empty
  | unionTy (firstIsNone : Bool) (first second : Ann)
  | funcTy (f : String → Except PyExc PyVal)
  | converterTy (c : String → Except PyExc PyVal)
  | boolTy
  | callTy (f : String → Except PyExc PyVal)

/-- One declared handler parameter: name, kind, annotation and declared
default (`Option.none` models `inspect.Parameter.empty`, i.e. no
default declared). -/
structure Param where
  name : String
  kind : ParamKind
  ann : Ann
  default : Option PyVal

/-! ## `anjani/util/converter.py` -/

/-- `converter._bool_converter`: lowercase the token, accept the fixed
vocabulary, raise `BadBoolArgument` otherwise. -/
def boolTrueTokens : List String := ["yes", "true", "enable", "on", "1"]

def boolFalseTokens : List String := ["no", "false", "disable", "off", "0"]

def bool_converter (arg : String) : Except PyExc Bool :=
  let a := pyLower arg
  if a ∈ boolTrueTokens then Except.ok true
  else if a ∈ boolFalseTokens then Except.ok false
  else Except.error (PyExc.badBool a)

/-- `converter._get_default`: the declared default if any, else the
supplied fallback. -/
def get_default (param : Param) (dflt : PyVal) : PyVal :=
  match param.default with
  | some d => d
  | Option.none => dflt

/-- The `Optional`/`Union` unwrap step of `transform`: use the first
type argument unless it is literally `None`, else the second. -/
def unwrapUnion : Ann → Ann
  | Ann.unionTy firstIsNone first second => if firstIsNone then second else first
  | a => a

/-- Dispatch of `transform` after the empty check and the union unwrap.
Plain callables (`funcTy`, `callTy`) are invoked with NO surrounding
`try`: their exceptions propagate.  A `Converter` subclass call catches
only `ConversionError`, a `bool` annotation catches only
`BadBoolArgument`; both fall back to `_get_default(param, err)`, which
is the declared default if any and otherwise the exception object
itself.  A leftover non-callable (nested union, or `empty` inside a
union) would raise `TypeError` when called. -/
def transformConverter (param : Param) (conv : Ann) (arg : String) : Except PyExc PyVal :=
  match conv with
  | Ann.funcTy f => f arg
  | Ann.converterTy c =>
    match c arg with
    | Except.ok v => Except.ok v
    | Except.error e =>
      if e = PyExc.conversionError then
        Except.ok (get_default param (PyVal.exc PyExc.conversionError))
      else Except.error e
  | Ann.boolTy =>
    match bool_converter arg with
    | Except.ok b => Except.ok (PyVal.bool b)
    | Except.error e => Except.ok (get_default param (PyVal.exc e))
  | Ann.callTy f => f arg
  | Ann.empty => Except.error PyExc.typeError
  | Ann.unionTy _ _ _ => Except.error PyExc.typeError

/-- `converter.transform`: an unannotated parameter passes the raw token
through; otherwise unwrap a union annotation and dispatch.  (The `ctx`
argument of the source is only consumed by the pyrogram entity
converters, which this embedding abstracts into the `converterTy`
resolving function, so it is not threaded here.) -/
def transform (param : Param) (arg : String) : Except PyExc PyVal :=
  match param.ann with
  | Ann.empty => Except.ok (PyVal.str arg)
  | a0 => transformConverter param (unwrapUnion a0) arg

/-- The `try: transform(ctx, param, to_convert[idx]) except IndexError`
body of `parse_arguments`: subscripting past the end raises
`IndexError`; an `IndexError` escaping `transform` itself would be
caught by the same handler, so both surface as `PyExc.indexError`. -/
def attemptTransform (param : Param) (tokens : List String) (idx : Nat) :
    Except PyExc PyVal :=
  match tokens[idx]? with
  | some tok => transform param tok
  | Option.none => Except.error PyExc.indexError

/-- The parameter loop of `converter.parse_arguments`.  `idx` is the
token cursor; `args`/`kwargs` are the accumulators (`list.append` is
modelled by appending on the right).  A positional parameter converts
`tokens[idx]`, falling back to `_get_default(param)` (declared default
or `None`) on `IndexError`; a keyword-only parameter consumes the rest
of the tokens joined by single spaces and stripped, then `break`s; a
variadic positional parameter raises `BadArgument` naming the parameter
and the command; a `**kwargs` parameter matches no branch and is
skipped. -/
def parseLoop (tokens : List String) (funcName : String) :
    List Param → Nat → List PyVal → List (String × PyVal) →
      Except PyExc (List PyVal × List (String × PyVal))
  | [], _, args, kwargs => Except.ok (args, kwargs)
  | param :: rest, idx, args, kwargs =>
    if param.kind = ParamKind.positionalOrKeyword ∨ param.kind = ParamKind.positionalOnly then
      match attemptTransform param tokens idx with
      | Except.ok result => parseLoop tokens funcName rest (idx + 1) (args ++ [result]) kwargs
      | Except.error e =>
        if e = PyExc.indexError then
          parseLoop tokens funcName rest (idx + 1) (args ++ [get_default param PyVal.none]) kwargs
        else Except.error e
    else if param.kind = ParamKind.keywordOnly then
      Except.ok (args, kwargs ++ [(param.name, PyVal.str (pyStrip (pyJoinSpace (tokens.drop idx))))])
    else if param.kind = ParamKind.varPositional then
      Except.error (PyExc.badArgument param.name funcName)
    else
      parseLoop tokens funcName rest idx args kwargs

/-- `converter.parse_arguments`: skip the leading `Context` parameter
(`next(items)`), then run the loop over `ctx.args` starting from token
index 0 with empty accumulators. -/
def parse_arguments (sig : List Param) (tokens : List String) (funcName : String) :
    Except PyExc (List PyVal × List (String × PyVal)) :=
  parseLoop tokens funcName (sig.drop 1) 0 [] []

/-- Modelled from the spec: the command dispatcher that calls
`parse_arguments` and then invokes the handler is not under `src/`
(only `converter.py` is); per the spec the router "converts arguments"
and then "invokes the handler", so a conversion error reaches the
invocation site and the handler body never runs. -/
def invoke_command (sig : List Param) (tokens : List String) (funcName : String)
    (handler : List PyVal → List (String × PyVal) → PyVal) : Except PyExc PyVal :=
  match parse_arguments sig tokens funcName with
  | Except.ok (args, kwargs) => Except.ok (handler args kwargs)
  | Except.error e => Except.error e

/-! Concrete signatures used by the testable properties of the spec. -/

/-- The leading `Context` parameter every handler declares. -/
def ctxParam : Param := ⟨"ctx", ParamKind.positionalOrKeyword, Ann.empty, Option.none⟩

/-- The conversion function the annotation `int` denotes: the final
`return converter(arg)` of `transform` calls the class `int` on the
token, so a malformed token raises `ValueError`. -/
def pyIntFn (s : String) : Except PyExc PyVal :=
  match pyToInt? s with
  | some n => Except.ok (PyVal.int n)
  | Option.none => Except.error (PyExc.valueError s)

/-- The parameter `n : int = 5` of the example signature in the spec. -/
def intDefaultParam : Param :=
  ⟨"n", ParamKind.positionalOrKeyword, Ann.callTy pyIntFn, some (PyVal.int 5)⟩

/-- The example signature `(ctx, n: int = 5)` from the spec. -/
def sigIntDefault : List Param := [ctxParam, intDefaultParam]

/-- The example parameter `enabled: bool` from the spec, with no default. -/
def boolNoDefaultParam : Param :=
  ⟨"enabled", ParamKind.positionalOrKeyword, Ann.boolTy, Option.none⟩

/-! ## `anjani/core/plugin_extenter.py` -/

/-- An association lookup standing in for Python dict indexing/`in`
tests (`self.plugins`, `self._plugin_event_handlers`). -/
def alookup {α : Type} : List (String × α) → String → Option α
  | [], _ => Option.none
  | (k, v) :: rest, key => if k = key then some v else alookup rest key

/-- Deletion of a dict key (`del d[key]`), as removal from the
association list. -/
def aerase {α : Type} : List (String × α) → String → List (String × α)
  | [], _ => []
  | (k, v) :: rest, key => if k = key then aerase rest key else (k, v) :: aerase rest key

/-- A command a plugin declares: primary name plus aliases. -/
structure CmdDecl where
  name : String
  aliases : List String
deriving DecidableEq, Repr

/-- A plugin class (`Type[plugin.Plugin]`): its declared `name`,
`disabled` flag, declared commands and the event names it listens to.
`classId` stands for Python class identity, so two distinct classes may
declare the same name. -/
structure PluginClass where
  name : String
  disabled : Bool
  commands : List CmdDecl
  listens : List String
  classId : Nat
deriving DecidableEq, Repr

/-- An instantiated plugin: `plug = cls(self); plug.comment = comment`. -/
structure PluginInst where
  cls : PluginClass
  comment : Option String
deriving DecidableEq, Repr

/-- The registry state `load_plugin` mutates: the plugin map
`self.plugins` plus the shared command and listener tables its
registration calls fill (command/alias token ↦ owning plugin name,
event name ↦ listening plugin name). -/
structure Registry where
  plugins : List (String × PluginInst)
  commands : List (String × String)
  listeners : List (String × String)
deriving DecidableEq, Repr

inductive LoadError where
  | existingPlugin (name : String)
deriving DecidableEq, Repr

/-- Modelled from the spec: `register_commands` lives in the command
dispatcher mixin, which is not under `src/`; the spec says `load`
"registers all of its commands (by declared name + aliases)". -/
def register_commands (st : Registry) (plug : PluginInst) : Registry :=
  { st with commands :=
      st.commands ++
        (plug.cls.commands.map
          (fun c => (c.name :: c.aliases).map (fun t => (t, plug.cls.name)))).flatten }

/-- Modelled from the spec: `register_listeners` lives in the event
dispatcher mixin, which is not under `src/`; the spec says `load`
registers "all of its event listeners". -/
def register_listeners (st : Registry) (plug : PluginInst) : Registry :=
  { st with listeners :=
      st.listeners ++ plug.cls.listens.map (fun ev => (ev, plug.cls.name)) }

/-- `PluginExtender.load_plugin`: raise `ExistingPluginError` when a
plugin of that name is already loaded, BEFORE constructing or
registering anything; otherwise construct the instance, register its
listeners then its commands, and store it in the plugin map.  The
returned pair is the registry state when the call returns or raises
(mutation is in place in the source, so a raise after partial mutation
would be visible here). -/
def load_plugin (st : Registry) (cls : PluginClass) (comment : Option String) :
    Registry × Option LoadError :=
  if (alookup st.plugins cls.name).isSome then
    (st, some (LoadError.existingPlugin cls.name))
  else
    let plug : PluginInst := ⟨cls, comment⟩
    let st1 := register_listeners st plug
    let st2 := register_commands st1 plug
    ({ st2 with plugins := st2.plugins ++ [(cls.name, plug)] }, Option.none)

/-! ## `anjani/core/telegram_bot.py`: plugin event handlers -/

/-- The pyrogram handler classes `update_plugin_events` instantiates. -/
inductive HandlerType where
  | callbackQueryHandler
  | inlineQueryHandler
  | messageHandler
deriving DecidableEq, Repr

/-- The pyrogram filter expressions passed to the handlers. -/
inductive TgFilter where
  | newChatMembers
  | leftChatMember
  | migrateFromChatId
  | migrateToChatId
  | and (a b : TgFilter)
  | or (a b : TgFilter)
  | invert (a : TgFilter)
deriving DecidableEq, Repr

/-- What `_plugin_event_handlers[name]` stores: the constructed handler
(its type and filters) and the dispatch group.  `client.add_handler`
and `client.remove_handler` are called exactly when an entry is added
to or deleted from this table, so the table records the platform-level
registrations. -/
structure HandlerInfo where
  htype : HandlerType
  filters : Option TgFilter
  group : Int
deriving DecidableEq, Repr

/-- The state `update_plugin_event` reads and mutates.  `listeners` is
the set of event names with at least one plugin listener — modelled
from the spec, since the event dispatcher mixin owning `self.listeners`
is not under `src/`; the spec says the state machine "tracks, per
built-in event name, whether any listener currently exists". -/
structure EventState where
  listeners : List String
  handlers : List (String × HandlerInfo)
deriving DecidableEq, Repr

/-- `TelegramBot.update_plugin_event`: if the name has listeners and no
handler is registered yet, construct and add one; if it has no
listeners but a handler is registered, remove and delete it; otherwise
do nothing. -/
def update_plugin_event (st : EventState) (name : String) (htype : HandlerType)
    (filters : Option TgFilter) (group : Int) : EventState :=
  if name ∈ st.listeners then
    if (alookup st.handlers name).isSome then st
    else { st with handlers := st.handlers ++ [(name, ⟨htype, filters, group⟩)] }
  else if (alookup st.handlers name).isSome then
    { st with handlers := aerase st.handlers name }
  else st

/-- The five built-in event names `update_plugin_events` refreshes. -/
def builtinEventNames : List String :=
  ["callback_query", "chat_action", "chat_migrate", "inline_query", "message"]

/-- `TelegramBot.update_plugin_events`: refresh each built-in event
name with its handler class and filter expression. -/
def update_plugin_events (st : EventState) : EventState :=
  let st1 := update_plugin_event st "callback_query"
    HandlerType.callbackQueryHandler Option.none 0
  let st2 := update_plugin_event st1 "chat_action" HandlerType.messageHandler
    (some (TgFilter.or TgFilter.newChatMembers TgFilter.leftChatMember)) 0
  let st3 := update_plugin_event st2 "chat_migrate" HandlerType.messageHandler
    (some TgFilter.migrateFromChatId) 0
  let st4 := update_plugin_event st3 "inline_query"
    HandlerType.inlineQueryHandler Option.none 0
  update_plugin_event st4 "message" HandlerType.messageHandler
    (some (TgFilter.and
      (TgFilter.and
        (TgFilter.and (TgFilter.invert TgFilter.newChatMembers)
          (TgFilter.invert TgFilter.leftChatMember))
        (TgFilter.invert TgFilter.migrateFromChatId))
      (TgFilter.invert TgFilter.migrateToChatId))) 0

/-! ## `anjani/core/telegram_bot.py`: redaction and `respond` -/

/-- The configured secrets `redact_message` reads from `self.config`. -/
structure Config where
  api_id : String
  api_hash : String
  bot_token : String
  db_uri : String
deriving DecidableEq, Repr

/-- `TelegramBot.redact_message`: for each of the four secrets in
order, if it occurs in the current text, replace every occurrence with
`[REDACTED]`. -/
def redact_message (cfg : Config) (text : String) : String :=
  let text := if pyContains text cfg.api_id then pyReplace text cfg.api_id "[REDACTED]" else text
  let text := if pyContains text cfg.api_hash then pyReplace text cfg.api_hash "[REDACTED]" else text
  let text := if pyContains text cfg.bot_token then pyReplace text cfg.bot_token "[REDACTED]" else text
  let text := if pyContains text cfg.db_uri then pyReplace text cfg.db_uri "[REDACTED]" else text
  text

/-- Modelled from the spec: `util.tg.truncate` is not under `src/`;
the call site comment says messages longer than the Telegram
4096-character length limit are truncated. -/
def truncate (text : String) : String :=
  if 4096 < text.length then ⟨text.data.take 4096⟩ else text

/-- A Telegram message, reduced to what `respond` consumes: its
identity and its text (read by the `text or response.text` fallback). -/
structure TgMessage where
  id : Nat
  text : String
deriving DecidableEq, Repr

/-- The five media keyword arguments `respond` inspects.  `some ""`
models a key passed with a falsy value, which the cleanup loop deletes
just like an absent key. -/
structure MediaKwargs where
  animation : Option String
  audio : Option String
  document : Option String
  photo : Option String
  video : Option String
deriving DecidableEq, Repr

/-- Python truthiness of an optional string kwarg. -/
def pyTruthy : Option String → Bool
  | some s => !(s = "")
  | Option.none => false

/-- One media value after the cleanup loop: deleted when falsy. -/
def cleanValue (v : Option String) : Option String :=
  if pyTruthy v then v else Option.none

/-- The `get rid of empty value` loop of `respond`: delete every media
key whose value is falsy. -/
def dropEmptyMedia (kw : MediaKwargs) : MediaKwargs :=
  ⟨cleanValue kw.animation, cleanValue kw.audio, cleanValue kw.document,
    cleanValue kw.photo, cleanValue kw.video⟩

/-- The `any(key in kwargs for key in (...))` media test, on the
cleaned kwargs (where a present key is always truthy). -/
def anyMedia (kw : MediaKwargs) : Bool :=
  kw.animation.isSome || kw.audio.isSome || kw.document.isSome ||
    kw.photo.isSome || kw.video.isSome

/-- The message-sending call the inner `reply` helper of `respond`
resolves to: one of the five media replies (caption = text) or a plain
text reply, addressed to the reference message. -/
inductive ReplyAction where
  | replyAnimation (ref : Nat) (animation caption : String)
  | replyAudio (ref : Nat) (audio caption : String)
  | replyDocument (ref : Nat) (document caption : String)
  | replyPhoto (ref : Nat) (photo caption : String)
  | replyVideo (ref : Nat) (video caption : String)
  | replyText (ref : Nat) (text : String)
deriving DecidableEq, Repr

/-- The inner `reply` helper of `respond`: pop each media kwarg in
order and send the first truthy one with the text as caption, else a
plain text reply. -/
def reply (reference : TgMessage) (text : String) (kw : MediaKwargs) : ReplyAction :=
  if pyTruthy kw.animation then ReplyAction.replyAnimation reference.id (kw.animation.getD "") text
  else if pyTruthy kw.audio then ReplyAction.replyAudio reference.id (kw.audio.getD "") text
  else if pyTruthy kw.document then ReplyAction.replyDocument reference.id (kw.document.getD "") text
  else if pyTruthy kw.photo then ReplyAction.replyPhoto reference.id (kw.photo.getD "") text
  else if pyTruthy kw.video then ReplyAction.replyVideo reference.id (kw.video.getD "") text
  else ReplyAction.replyText reference.id text

/-- The observable outcome of one `respond` call: a new message sent in
reply to the reference, an in-place edit of the tracked response, a
delete of the tracked response followed by a resend, or a raised
`ValueError` carrying the unknown mode (no message sent). -/
inductive RespondResult where
  | sent (a : ReplyAction)
  | edited (responseId : Nat) (text : String)
  | deletedAndSent (deletedId : Nat) (a : ReplyAction)
  | valueError (mode : Option String)
deriving DecidableEq, Repr

/-- `TelegramBot.respond`.  A nonempty text is first redacted (when
`redact` is on) and truncated; falsy media kwargs are dropped; then:
mode `"reply"`, or mode `"edit"` with no tracked response, sends a new
reply; mode `"edit"` with a tracked response edits it in place, except
that any media forces a delete of the tracked response and a resend
(with `text or response.text` as caption); any other mode raises
`ValueError`.  `mode` is `Optional[str]`, so `Option.none` models
passing `mode=None`. -/
def respond (cfg : Config) (msg : TgMessage) (text : String) (mode : Option String)
    (redact : Bool) (response : Option TgMessage) (kw : MediaKwargs) : RespondResult :=
  let text :=
    if text ≠ "" then truncate (if redact then redact_message cfg text else text)
    else text
  let kw := dropEmptyMedia kw
  if mode = some "reply" ∨ (response = Option.none ∧ mode = some "edit") then
    RespondResult.sent (reply msg text kw)
  else
    match response with
    | some resp =>
      if mode = some "edit" then
        if anyMedia kw then
          RespondResult.deletedAndSent resp.id
            (reply msg (if text ≠ "" then text else resp.text) kw)
        else RespondResult.edited resp.id text
      else RespondResult.valueError mode
    | Option.none => RespondResult.valueError mode

/-! ## Concrete inputs used by witnesses and counterexamples -/

/-- A config whose `api_id` is a substring of the redaction marker. -/
def cfgLeak : Config := ⟨"RED", "zzhash", "zztoken", "zzuri"⟩

def msgLeak : TgMessage := ⟨1, "hello"⟩

def respMsg : TgMessage := ⟨2, "previous text"⟩

def noMedia : MediaKwargs :=
  ⟨Option.none, Option.none, Option.none, Option.none, Option.none⟩

def photoMedia : MediaKwargs :=
  ⟨Option.none, Option.none, Option.none, some "photo.jpg", Option.none⟩

/-- Two distinct plugin classes declaring the same name `"example"`. -/
def examplePlugin : PluginClass :=
  ⟨"example", false, [⟨"test", ["alias"]⟩], ["message"], 0⟩

def examplePluginClone : PluginClass :=
  ⟨"example", false, [], [], 1⟩

def emptyRegistry : Registry := ⟨[], [], []⟩

/-- An unannotated positional parameter with no default. -/
def plainParam : Param := ⟨"a", ParamKind.positionalOrKeyword, Ann.empty, Option.none⟩

/-- An unannotated positional parameter with a declared default. -/
def plainDefaultParam : Param :=
  ⟨"b", ParamKind.positionalOrKeyword, Ann.empty, some (PyVal.str "fallback")⟩

/-- A keyword-only parameter, as in `(ctx, *, note: str)`. -/
def noteParam : Param := ⟨"note", ParamKind.keywordOnly, Ann.empty, Option.none⟩

/-- A variadic positional parameter, as in `(ctx, *args)`. -/
def varArgsParam : Param := ⟨"args", ParamKind.varPositional, Ann.empty, Option.none⟩

/-! ## Association list facts -/

theorem alookup_append_of_none {α : Type} (l1 l2 : List (String × α)) (key : String)
    (h : alookup l1 key = Option.none) : alookup (l1 ++ l2) key = alookup l2 key := by
  induction l1 with
  | nil => rfl
  | cons p rest ih =>
    obtain ⟨k, v⟩ := p
    by_cases hk : k = key
    · simp only [alookup, if_pos hk] at h
      exact absurd h (by simp)
    · simp only [alookup, if_neg hk] at h
      simp only [List.cons_append, alookup, if_neg hk]
      exact ih h

theorem alookup_append_of_some {α : Type} (l1 l2 : List (String × α)) (key : String)
    (v : α) (h : alookup l1 key = some v) : alookup (l1 ++ l2) key = some v := by
  induction l1 with
  | nil => simp [alookup] at h
  | cons p rest ih =>
    obtain ⟨k, w⟩ := p
    by_cases hk : k = key
    · simp only [alookup, if_pos hk] at h
      simp only [List.cons_append, alookup, if_pos hk]
      exact h
    · simp only [alookup, if_neg hk] at h
      simp only [List.cons_append, alookup, if_neg hk]
      exact ih h

theorem alookup_aerase_self {α : Type} (l : List (String × α)) (key : String) :
    alookup (aerase l key) key = Option.none := by
  induction l with
  | nil => rfl
  | cons p rest ih =>
    obtain ⟨k, v⟩ := p
    by_cases hk : k = key
    · simp only [aerase, if_pos hk]; exact ih
    · simp only [aerase, if_neg hk, alookup, if_neg hk]; exact ih

theorem alookup_aerase_ne {α : Type} (l : List (String × α)) (key m : String)
    (h : m ≠ key) : alookup (aerase l key) m = alookup l m := by
  induction l with
  | nil => rfl
  | cons p rest ih =>
    obtain ⟨k, v⟩ := p
    by_cases hk : k = key
    · simp only [aerase, if_pos hk, alookup]
      rw [if_neg (by rw [hk]; exact fun he => h he.symm)]
      exact ih
    · simp only [aerase, if_neg hk, alookup]
      by_cases hm : k = m
      · rw [if_pos hm, if_pos hm]
      · rw [if_neg hm, if_neg hm]; exact ih

/-! ## Boolean conversion (claim C1) -/

theorem transform_bool (param : Param) (arg : String) (h : param.ann = Ann.boolTy) :
    transform param arg =
      Except.ok (match bool_converter arg with
        | Except.ok b => PyVal.bool b
        | Except.error e => get_default param (PyVal.exc e)) := by
  rcases param with ⟨nm, kd, an, df⟩
  obtain rfl : an = Ann.boolTy := h
  cases hbc : bool_converter arg with
  | ok b => simp [transform, transformConverter, unwrapUnion, hbc]
  | error e => simp [transform, transformConverter, unwrapUnion, hbc]

theorem boolTokens_disjoint (s : String) (h1 : s ∈ boolTrueTokens) :
    s ∉ boolFalseTokens := by
  intro h2
  simp only [boolTrueTokens, List.mem_cons, List.not_mem_nil, or_false] at h1
  rcases h1 with h | h | h | h | h <;> rw [h] at h2 <;> exact absurd h2 (by decide)

/-- C1 (corrected).  For a parameter declared `bool`, conversion maps
any casing of the yes/true/enable/on/1 vocabulary to `True` and of the
no/false/disable/off/0 vocabulary to `False`; any other token yields
`_get_default(param, err)` — the declared default if any, otherwise the
`BadBoolArgument` exception OBJECT as the argument value (not `None`)
— and conversion never propagates an exception. -/
theorem bool_conversion_spec (param : Param) (arg : String) (h : param.ann = Ann.boolTy) :
    (pyLower arg ∈ boolTrueTokens → transform param arg = Except.ok (PyVal.bool true)) ∧
    (pyLower arg ∈ boolFalseTokens → transform param arg = Except.ok (PyVal.bool false)) ∧
    (pyLower arg ∉ boolTrueTokens → pyLower arg ∉ boolFalseTokens →
      transform param arg
        = Except.ok (get_default param (PyVal.exc (PyExc.badBool (pyLower arg))))) ∧
    (∃ v, transform param arg = Except.ok v) := by
  have key := transform_bool param arg h
  refine ⟨?_, ?_, ?_, ⟨_, key⟩⟩
  · intro h1
    rw [key]
    simp [bool_converter, h1]
  · intro h2
    have h1 : pyLower arg ∉ boolTrueTokens := fun h1 => boolTokens_disjoint _ h1 h2
    rw [key]
    simp [bool_converter, h1, h2]
  · intro h1 h2
    rw [key]
    simp [bool_converter, h1, h2]

theorem bool_conversion_spec_witness :
    transform boolNoDefaultParam "On" = Except.ok (PyVal.bool true) ∧
    transform boolNoDefaultParam "off" = Except.ok (PyVal.bool false) ∧
    transform boolNoDefaultParam "maybe"
      = Except.ok (get_default boolNoDefaultParam
          (PyVal.exc (PyExc.badBool (pyLower "maybe")))) :=
  ⟨(bool_conversion_spec boolNoDefaultParam "On" rfl).1 (by decide),
   (bool_conversion_spec boolNoDefaultParam "off" rfl).2.1 (by decide),
   (bool_conversion_spec boolNoDefaultParam "maybe" rfl).2.2.1 (by decide) (by decide)⟩

/-- C1 counterexample.  With no declared default, the token
`"maybe"` makes conversion hand the handler the `BadBoolArgument`
exception object, which is not the absent/`None` value the claim
promises. -/
theorem bool_fallback_counterexample :
    transform boolNoDefaultParam "maybe" = Except.ok (PyVal.exc (PyExc.badBool "maybe")) ∧
    Except.ok (PyVal.exc (PyExc.badBool "maybe"))
      ≠ (Except.ok PyVal.none : Except PyExc PyVal) :=
  ⟨by decide, by decide⟩

/-! ## Plain-function conversion with default (claim C2) -/

/-- C2 (corrected).  For the signature `(ctx, n: int = 5)`: no tokens
yields the default `5`; token `"7"` yields `7`; but a token `int()`
rejects makes the `ValueError` propagate out of `parse_arguments` —
there is no fallback to the default, because only `ConversionError`
(entity converters) and `BadBoolArgument` (bool) are caught by
`transform`, and `parse_arguments` catches only `IndexError`. -/
theorem int_default_conversion (funcName : String) :
    parse_arguments sigIntDefault [] funcName = Except.ok ([PyVal.int 5], []) ∧
    parse_arguments sigIntDefault ["7"] funcName = Except.ok ([PyVal.int 7], []) ∧
    parse_arguments sigIntDefault ["abc"] funcName
      = Except.error (PyExc.valueError "abc") :=
  ⟨rfl, rfl, rfl⟩

/-- C2 counterexample.  On token `"abc"` the conversion for
`(ctx, n: int = 5)` raises instead of yielding the default `5`. -/
theorem int_fallback_counterexample :
    parse_arguments sigIntDefault ["abc"] "cmd" = Except.error (PyExc.valueError "abc") ∧
    (Except.error (PyExc.valueError "abc")
        : Except PyExc (List PyVal × List (String × PyVal)))
      ≠ Except.ok ([PyVal.int 5], []) :=
  ⟨by decide, by decide⟩

/-! ## Duplicate plugin load (claim C3) -/

/-- C3 (confirmed).  Loading a second plugin class with an already
loaded name fails with `ExistingPluginError` and leaves the registry —
plugin map, command table and listener table — exactly as it was: the
duplicate check runs before the instance is constructed or anything is
registered, and the stored instance is still that of the first class. -/
theorem load_duplicate_rejected (st st1 : Registry) (P1 P2 : PluginClass)
    (c1 c2 : Option String) (hname : P1.name = P2.name) (_hne : P1 ≠ P2)
    (hload : load_plugin st P1 c1 = (st1, Option.none)) :
    load_plugin st1 P2 c2 = (st1, some (LoadError.existingPlugin P2.name)) ∧
    alookup st1.plugins P2.name = some ⟨P1, c1⟩ := by
  unfold load_plugin at hload
  by_cases h : (alookup st.plugins P1.name).isSome
  · rw [if_pos h] at hload
    exact absurd (congrArg Prod.snd hload) (by simp)
  · rw [if_neg h] at hload
    injection hload with h1 h2
    have hnone : alookup st.plugins P1.name = Option.none :=
      Option.not_isSome_iff_eq_none.mp h
    have hp : st1.plugins = st.plugins ++ [(P1.name, (⟨P1, c1⟩ : PluginInst))] := by
      rw [← h1]
      rfl
    have hlook : alookup st1.plugins P2.name = some ⟨P1, c1⟩ := by
      rw [hp, ← hname, alookup_append_of_none _ _ _ hnone]
      simp [alookup]
    refine ⟨?_, hlook⟩
    unfold load_plugin
    rw [if_pos (by rw [hlook]; rfl)]

theorem load_duplicate_rejected_witness :
    load_plugin (load_plugin emptyRegistry examplePlugin Option.none).1
        examplePluginClone Option.none
      = ((load_plugin emptyRegistry examplePlugin Option.none).1,
          some (LoadError.existingPlugin "example")) ∧
    alookup (load_plugin emptyRegistry examplePlugin Option.none).1.plugins "example"
      = some ⟨examplePlugin, Option.none⟩ :=
  load_duplicate_rejected emptyRegistry
    (load_plugin emptyRegistry examplePlugin Option.none).1
    examplePlugin examplePluginClone Option.none Option.none
    rfl (by decide) (by decide)

/-! ## Respond modes (claims C7 and C9) -/

/-- C7 (confirmed).  `respond` with mode `"reply"` always sends a new
message; with mode `"edit"` and no tracked response it sends a new
reply; with mode `"edit"`, a tracked response and any (truthy) media it
deletes the tracked response and resends; with mode `"edit"`, a tracked
response and no media it edits the tracked response in place. -/
theorem respond_mode_behavior (cfg : Config) (msg : TgMessage) (text : String)
    (redact : Bool) (response : Option TgMessage) (kw : MediaKwargs) (resp : TgMessage) :
    (∃ a, respond cfg msg text (some "reply") redact response kw = RespondResult.sent a) ∧
    (∃ a, respond cfg msg text (some "edit") redact Option.none kw
        = RespondResult.sent a) ∧
    (anyMedia (dropEmptyMedia kw) = true →
      ∃ a, respond cfg msg text (some "edit") redact (some resp) kw
        = RespondResult.deletedAndSent resp.id a) ∧
    (anyMedia (dropEmptyMedia kw) = false →
      ∃ t, respond cfg msg text (some "edit") redact (some resp) kw
        = RespondResult.edited resp.id t) := by
  have hnotreply : ¬((some "edit" : Option String) = some "reply" ∨
      ((some resp : Option TgMessage) = Option.none ∧
        (some "edit" : Option String) = some "edit")) := by
    rintro (hx | ⟨hx, -⟩) <;> simp at hx
  refine ⟨?_, ?_, ?_, ?_⟩
  · exact ⟨_, by unfold respond; rw [if_pos (Or.inl rfl)]⟩
  · exact ⟨_, by unfold respond; rw [if_pos (Or.inr ⟨rfl, rfl⟩)]⟩
  · intro hm
    simp only [respond, if_neg hnotreply, hm]
    exact ⟨_, rfl⟩
  · intro hm
    simp only [respond, if_neg hnotreply, hm]
    exact ⟨_, rfl⟩

theorem respond_mode_behavior_witness :
    (∃ a, respond cfgLeak msgLeak "hi" (some "reply") true (some respMsg) noMedia
        = RespondResult.sent a) ∧
    (∃ a, respond cfgLeak msgLeak "hi" (some "edit") true (some respMsg) photoMedia
        = RespondResult.deletedAndSent respMsg.id a) ∧
    (∃ t, respond cfgLeak msgLeak "hi" (some "edit") true (some respMsg) noMedia
        = RespondResult.edited respMsg.id t) :=
  ⟨(respond_mode_behavior cfgLeak msgLeak "hi" true (some respMsg) noMedia respMsg).1,
   (respond_mode_behavior cfgLeak msgLeak "hi" true (some respMsg) photoMedia
      respMsg).2.2.1 (by decide),
   (respond_mode_behavior cfgLeak msgLeak "hi" true (some respMsg) noMedia
      respMsg).2.2.2 (by decide)⟩

/-- C9 (confirmed).  Any mode other than `"reply"` and `"edit"` —
including `mode=None` — makes `respond` raise `ValueError` carrying the
unknown mode, and no message is sent or edited. -/
theorem respond_unknown_mode (cfg : Config) (msg : TgMessage) (text : String)
    (mode : Option String) (redact : Bool) (response : Option TgMessage)
    (kw : MediaKwargs) (h1 : mode ≠ some "reply") (h2 : mode ≠ some "edit") :
    respond cfg msg text mode redact response kw = RespondResult.valueError mode := by
  unfold respond
  rw [if_neg (by rintro (hx | ⟨-, hx⟩) <;> [exact h1 hx; exact h2 hx])]
  cases response with
  | none => rfl
  | some resp => simp only [if_neg h2]

theorem respond_unknown_mode_witness :
    respond cfgLeak msgLeak "hi" (some "maybe") true Option.none noMedia
      = RespondResult.valueError (some "maybe") :=
  respond_unknown_mode cfgLeak msgLeak "hi" (some "maybe") true Option.none noMedia
    (by decide) (by decide)

/-! ## Redaction (claim C10) -/

/-- C10 (corrected).  With redaction enabled and a nonempty text, every
send/edit path of `respond` uses exactly
`truncate (redact_message cfg text)`: the text with every occurrence of
each secret sequentially replaced by `[REDACTED]` (api_id, api_hash,
bot_token, db_uri, in that order) and then truncated.  The sequential
replacement does not guarantee the sent text contains no secret (see
the counterexample: a secret overlapping the marker survives). -/
theorem respond_redaction_pipeline (cfg : Config) (msg : TgMessage) (text : String)
    (response : Option TgMessage) (kw : MediaKwargs) (resp : TgMessage)
    (htext : text ≠ "") :
    (respond cfg msg text (some "reply") true response kw
      = RespondResult.sent
          (reply msg (truncate (redact_message cfg text)) (dropEmptyMedia kw))) ∧
    (respond cfg msg text (some "edit") true Option.none kw
      = RespondResult.sent
          (reply msg (truncate (redact_message cfg text)) (dropEmptyMedia kw))) ∧
    (anyMedia (dropEmptyMedia kw) = true →
      respond cfg msg text (some "edit") true (some resp) kw
        = RespondResult.deletedAndSent resp.id
            (reply msg
              (if truncate (redact_message cfg text) ≠ ""
                then truncate (redact_message cfg text) else resp.text)
              (dropEmptyMedia kw))) ∧
    (anyMedia (dropEmptyMedia kw) = false →
      respond cfg msg text (some "edit") true (some resp) kw
        = RespondResult.edited resp.id (truncate (redact_message cfg text))) := by
  have hnotreply : ¬((some "edit" : Option String) = some "reply" ∨
      ((some resp : Option TgMessage) = Option.none ∧
        (some "edit" : Option String) = some "edit")) := by
    rintro (hx | ⟨hx, -⟩) <;> simp at hx
  refine ⟨?_, ?_, ?_, ?_⟩
  · unfold respond
    rw [if_pos (Or.inl rfl), if_pos htext]
    simp
  · unfold respond
    rw [if_pos (Or.inr ⟨rfl, rfl⟩), if_pos htext]
    simp
  · intro hm
    unfold respond
    rw [if_neg hnotreply, if_pos htext]
    simp [hm]
  · intro hm
    unfold respond
    rw [if_neg hnotreply, if_pos htext]
    simp [hm]

theorem respond_redaction_pipeline_witness :
    respond cfgLeak msgLeak "my id is RED" (some "edit") true Option.none noMedia
      = RespondResult.sent
          (reply msgLeak (truncate (redact_message cfgLeak "my id is RED"))
            (dropEmptyMedia noMedia)) :=
  (respond_redaction_pipeline cfgLeak msgLeak "my id is RED" Option.none noMedia
    respMsg (by decide)).2.1

/-- C10 counterexample.  With `api_id = "RED"` the sent text for input
`"RED"` is `"[REDACTED]"`, which still CONTAINS the secret `"RED"`:
the claim that the sent text contains no occurrence of any configured
secret is false. -/
theorem redact_leak_counterexample :
    respond cfgLeak msgLeak "RED" (some "edit") true Option.none noMedia
      = RespondResult.sent (ReplyAction.replyText 1 "[REDACTED]") ∧
    pyContains "[REDACTED]" cfgLeak.api_id = true :=
  ⟨by decide, by decide⟩

/-! ## Plugin event handler state machine (claim C8) -/

theorem update_plugin_event_listeners (st : EventState) (name : String)
    (ht : HandlerType) (fl : Option TgFilter) (g : Int) :
    (update_plugin_event st name ht fl g).listeners = st.listeners := by
  unfold update_plugin_event
  split
  · split <;> rfl
  · split <;> rfl

theorem update_plugin_event_lookup_self (st : EventState) (name : String)
    (ht : HandlerType) (fl : Option TgFilter) (g : Int) :
    ((alookup (update_plugin_event st name ht fl g).handlers name).isSome = true)
      ↔ name ∈ st.listeners := by
  unfold update_plugin_event
  by_cases hl : name ∈ st.listeners
  · rw [if_pos hl]
    by_cases hh : (alookup st.handlers name).isSome
    · rw [if_pos hh]
      exact ⟨fun _ => hl, fun _ => hh⟩
    · rw [if_neg hh]
      have : alookup (st.handlers ++ [(name, (⟨ht, fl, g⟩ : HandlerInfo))]) name
          = some ⟨ht, fl, g⟩ := by
        rw [alookup_append_of_none _ _ _ (Option.not_isSome_iff_eq_none.mp hh)]
        simp [alookup]
      simp only [this]
      exact ⟨fun _ => hl, fun _ => rfl⟩
  · rw [if_neg hl]
    by_cases hh : (alookup st.handlers name).isSome
    · rw [if_pos hh]
      simp only [alookup_aerase_self]
      exact ⟨fun hx => by simp at hx, fun hx => absurd hx hl⟩
    · rw [if_neg hh]
      exact ⟨fun hx => absurd hx hh, fun hx => absurd hx hl⟩

theorem update_plugin_event_lookup_ne (st : EventState) (name : String)
    (ht : HandlerType) (fl : Option TgFilter) (g : Int) (m : String) (hne : m ≠ name) :
    alookup (update_plugin_event st name ht fl g).handlers m
      = alookup st.handlers m := by
  unfold update_plugin_event
  split
  · split
    · rfl
    · cases hm : alookup st.handlers m with
      | some v => exact alookup_append_of_some _ _ _ _ hm
      | none =>
        rw [alookup_append_of_none _ _ _ hm]
        have hnm : ¬(name = m) := fun he => hne he.symm
        simp [alookup, hnm]
  · split
    · exact alookup_aerase_ne _ _ _ hne
    · rfl

/-- C8 (confirmed).  After any single `update_plugin_event name` call a
platform handler is registered for `name` iff at least one listener for
`name` exists; and after `update_plugin_events` that invariant holds
for every built-in event name — the handler is installed when the first
listener appears and removed once the last one is gone. -/
theorem plugin_event_handler_invariant :
    (∀ (st : EventState) (name : String) (ht : HandlerType) (fl : Option TgFilter)
      (g : Int),
      ((alookup (update_plugin_event st name ht fl g).handlers name).isSome = true
        ↔ name ∈ st.listeners)) ∧
    (∀ (st : EventState) (name : String), name ∈ builtinEventNames →
      ((alookup (update_plugin_events st).handlers name).isSome = true
        ↔ name ∈ st.listeners)) := by
  refine ⟨update_plugin_event_lookup_self, ?_⟩
  intro st name hmem
  simp only [builtinEventNames, List.mem_cons, List.not_mem_nil, or_false] at hmem
  rcases hmem with rfl | rfl | rfl | rfl | rfl
  · simp only [update_plugin_events]
    rw [update_plugin_event_lookup_ne _ _ _ _ _ _ (by decide),
      update_plugin_event_lookup_ne _ _ _ _ _ _ (by decide),
      update_plugin_event_lookup_ne _ _ _ _ _ _ (by decide),
      update_plugin_event_lookup_ne _ _ _ _ _ _ (by decide),
      update_plugin_event_lookup_self]
  · simp only [update_plugin_events]
    rw [update_plugin_event_lookup_ne _ _ _ _ _ _ (by decide),
      update_plugin_event_lookup_ne _ _ _ _ _ _ (by decide),
      update_plugin_event_lookup_ne _ _ _ _ _ _ (by decide),
      update_plugin_event_lookup_self, update_plugin_event_listeners]
  · simp only [update_plugin_events]
    rw [update_plugin_event_lookup_ne _ _ _ _ _ _ (by decide),
      update_plugin_event_lookup_ne _ _ _ _ _ _ (by decide),
      update_plugin_event_lookup_self, update_plugin_event_listeners,
      update_plugin_event_listeners]
  · simp only [update_plugin_events]
    rw [update_plugin_event_lookup_ne _ _ _ _ _ _ (by decide),
      update_plugin_event_lookup_self, update_plugin_event_listeners,
      update_plugin_event_listeners, update_plugin_event_listeners]
  · simp only [update_plugin_events]
    rw [update_plugin_event_lookup_self, update_plugin_event_listeners,
      update_plugin_event_listeners, update_plugin_event_listeners,
      update_plugin_event_listeners]

theorem plugin_event_handler_invariant_witness :
    (alookup (update_plugin_events ⟨["message"], []⟩).handlers "message").isSome
      = true :=
  (plugin_event_handler_invariant.2 ⟨["message"], []⟩ "message" (by decide)).mpr
    (by decide)

/-! ## Parse-loop decomposition lemmas (claims C4, C5, C6) -/

theorem parseLoop_nil (tokens : List String) (funcName : String) (idx : Nat)
    (args : List PyVal) (kwargs : List (String × PyVal)) :
    parseLoop tokens funcName [] idx args kwargs = Except.ok (args, kwargs) := rfl

/-- Processing a block of positional parameters with the token cursor
already past the end of the token list: every parameter takes the
`IndexError` branch and receives `_get_default(param)` — its declared
default, else `None` — and the loop never fails. -/
theorem parseLoop_exhausted (params : List Param) (tokens : List String)
    (funcName : String) (idx : Nat) (args : List PyVal)
    (kwargs : List (String × PyVal))
    (hpos : ∀ p ∈ params,
      p.kind = ParamKind.positionalOrKeyword ∨ p.kind = ParamKind.positionalOnly)
    (hidx : tokens.length ≤ idx) :
    parseLoop tokens funcName params idx args kwargs
      = Except.ok (args ++ params.map (fun p => get_default p PyVal.none), kwargs) := by
  induction params generalizing idx args with
  | nil => simp [parseLoop_nil]
  | cons p rest ih =>
    have hp := hpos p (List.mem_cons_self _ _)
    have hrest : ∀ q ∈ rest,
        q.kind = ParamKind.positionalOrKeyword ∨ q.kind = ParamKind.positionalOnly :=
      fun q hq => hpos q (List.mem_cons_of_mem _ hq)
    have hnone : tokens[idx]? = Option.none := List.getElem?_eq_none hidx
    simp only [parseLoop, if_pos hp, attemptTransform, hnone, if_true]
    rw [ih (idx + 1) (args ++ [get_default p PyVal.none]) hrest (by omega)]
    simp

/-- Processing a block of positional parameters whose in-range tokens
all convert successfully: the loop reaches the trailing parameters with
the cursor advanced by the block length and one converted-or-defaulted
value appended per parameter; parameters past the end of the token
list received their `_get_default(param)` value. -/
theorem parseLoop_positional_split (pos tail : List Param) (tokens : List String)
    (funcName : String) (idx : Nat) (args : List PyVal)
    (kwargs : List (String × PyVal))
    (hpos : ∀ p ∈ pos,
      p.kind = ParamKind.positionalOrKeyword ∨ p.kind = ParamKind.positionalOnly)
    (htr : ∀ (k : Nat) (p : Param) (tok : String), pos[k]? = some p → tokens[idx + k]? = some tok →
      ∃ v, transform p tok = Except.ok v) :
    ∃ newArgs, newArgs.length = pos.length ∧
      parseLoop tokens funcName (pos ++ tail) idx args kwargs
        = parseLoop tokens funcName tail (idx + pos.length) (args ++ newArgs) kwargs ∧
      (∀ (k : Nat) (p : Param), pos[k]? = some p → tokens.length ≤ idx + k →
        newArgs[k]? = some (get_default p PyVal.none)) := by
  induction pos generalizing idx args with
  | nil =>
    refine ⟨[], rfl, by simp, ?_⟩
    intro k p hk
    simp at hk
  | cons p rest ih =>
    have hp := hpos p (List.mem_cons_self _ _)
    have hrest : ∀ q ∈ rest,
        q.kind = ParamKind.positionalOrKeyword ∨ q.kind = ParamKind.positionalOnly :=
      fun q hq => hpos q (List.mem_cons_of_mem _ hq)
    have htr' : ∀ (k : Nat) (q : Param) (tok : String), rest[k]? = some q → tokens[(idx + 1) + k]? = some tok →
        ∃ v, transform q tok = Except.ok v := by
      intro k q tok hq ht
      refine htr (k + 1) q tok (by simpa using hq) ?_
      rw [show idx + (k + 1) = idx + 1 + k by omega]
      exact ht
    cases htok : tokens[idx]? with
    | some tok =>
      obtain ⟨v, hv⟩ := htr 0 p tok (by simp) (by simpa using htok)
      have hstep : parseLoop tokens funcName ((p :: rest) ++ tail) idx args kwargs
          = parseLoop tokens funcName (rest ++ tail) (idx + 1) (args ++ [v]) kwargs := by
        simp only [List.cons_append, parseLoop, if_pos hp, attemptTransform, htok, hv]
        rfl
      obtain ⟨na, hlen, heq, hdef⟩ := ih (idx + 1) (args ++ [v]) hrest htr'
      refine ⟨v :: na, by simp [hlen], ?_, ?_⟩
      · have hn : idx + 1 + rest.length = idx + (p :: rest).length := by
          simp only [List.length_cons]
          omega
        have ha : (args ++ [v]) ++ na = args ++ v :: na := by simp
        rw [hstep, heq, hn, ha]
      · intro k q hq hge
        cases k with
        | zero =>
          exfalso
          have hcon : tokens[idx]? = Option.none :=
            List.getElem?_eq_none (by omega)
          rw [htok] at hcon
          exact absurd hcon (by simp)
        | succ k2 =>
          simp only [List.getElem?_cons_succ] at hq ⊢
          exact hdef k2 q hq (by omega)
    | none =>
      have hstep : parseLoop tokens funcName ((p :: rest) ++ tail) idx args kwargs
          = parseLoop tokens funcName (rest ++ tail) (idx + 1)
              (args ++ [get_default p PyVal.none]) kwargs := by
        simp only [List.cons_append, parseLoop, if_pos hp, attemptTransform, htok,
          if_true]
        rfl
      obtain ⟨na, hlen, heq, hdef⟩ :=
        ih (idx + 1) (args ++ [get_default p PyVal.none]) hrest htr'
      refine ⟨get_default p PyVal.none :: na, by simp [hlen], ?_, ?_⟩
      · have hn : idx + 1 + rest.length = idx + (p :: rest).length := by
          simp only [List.length_cons]
          omega
        have ha : (args ++ [get_default p PyVal.none]) ++ na
            = args ++ get_default p PyVal.none :: na := by simp
        rw [hstep, heq, hn, ha]
      · intro k q hq hge
        cases k with
        | zero =>
          obtain rfl : p = q := by simpa using hq
          exact List.getElem?_cons_zero
        | succ k2 =>
          simp only [List.getElem?_cons_succ] at hq ⊢
          exact hdef k2 q hq (by omega)

/-- Processing a block of positional parameters with no assumption on
the conversions: the loop either raises some exception inside the block
or reaches the trailing parameters. -/
theorem parseLoop_positional_progress (pos tail : List Param) (tokens : List String)
    (funcName : String) (idx : Nat) (args : List PyVal)
    (kwargs : List (String × PyVal))
    (hpos : ∀ p ∈ pos,
      p.kind = ParamKind.positionalOrKeyword ∨ p.kind = ParamKind.positionalOnly) :
    (∃ e, parseLoop tokens funcName (pos ++ tail) idx args kwargs = Except.error e) ∨
    (∃ newArgs, parseLoop tokens funcName (pos ++ tail) idx args kwargs
        = parseLoop tokens funcName tail (idx + pos.length) (args ++ newArgs) kwargs) := by
  induction pos generalizing idx args with
  | nil => exact Or.inr ⟨[], by simp⟩
  | cons p rest ih =>
    have hp := hpos p (List.mem_cons_self _ _)
    have hrest : ∀ q ∈ rest,
        q.kind = ParamKind.positionalOrKeyword ∨ q.kind = ParamKind.positionalOnly :=
      fun q hq => hpos q (List.mem_cons_of_mem _ hq)
    have hn : idx + 1 + rest.length = idx + (p :: rest).length := by
      simp only [List.length_cons]
      omega
    cases hat : attemptTransform p tokens idx with
    | ok v =>
      have hstep : parseLoop tokens funcName ((p :: rest) ++ tail) idx args kwargs
          = parseLoop tokens funcName (rest ++ tail) (idx + 1) (args ++ [v]) kwargs := by
        simp only [List.cons_append, parseLoop, if_pos hp, hat]
        rfl
      rcases ih (idx + 1) (args ++ [v]) hrest with ⟨e, he⟩ | ⟨na, hna⟩
      · exact Or.inl ⟨e, by rw [hstep]; exact he⟩
      · refine Or.inr ⟨v :: na, ?_⟩
        have ha : (args ++ [v]) ++ na = args ++ v :: na := by simp
        rw [hstep, hna, hn, ha]
    | error e =>
      by_cases he : e = PyExc.indexError
      · subst he
        have hstep : parseLoop tokens funcName ((p :: rest) ++ tail) idx args kwargs
            = parseLoop tokens funcName (rest ++ tail) (idx + 1)
                (args ++ [get_default p PyVal.none]) kwargs := by
          simp only [List.cons_append, parseLoop, if_pos hp, hat, if_true]
          rfl
        rcases ih (idx + 1) (args ++ [get_default p PyVal.none]) hrest with
          ⟨e2, he2⟩ | ⟨na, hna⟩
        · exact Or.inl ⟨e2, by rw [hstep]; exact he2⟩
        · refine Or.inr ⟨get_default p PyVal.none :: na, ?_⟩
          have ha : (args ++ [get_default p PyVal.none]) ++ na
              = args ++ get_default p PyVal.none :: na := by simp
          rw [hstep, hna, hn, ha]
      · refine Or.inl ⟨e, ?_⟩
        simp only [List.cons_append, parseLoop, if_pos hp, hat, if_neg he]

/-- C4 (confirmed).  For an all-positional signature whose in-range
tokens convert successfully, parsing always succeeds — token exhaustion
never raises — and every positional parameter whose index is past the
end of the token list is bound to its declared default, or `None` when
it declares none. -/
theorem token_exhaustion_defaults (params : List Param) (tokens : List String)
    (funcName : String)
    (hpos : ∀ p ∈ params,
      p.kind = ParamKind.positionalOrKeyword ∨ p.kind = ParamKind.positionalOnly)
    (htr : ∀ (k : Nat) (p : Param) (tok : String), params[k]? = some p → tokens[k]? = some tok →
      ∃ v, transform p tok = Except.ok v) :
    ∃ args, args.length = params.length ∧
      parse_arguments (ctxParam :: params) tokens funcName = Except.ok (args, []) ∧
      (∀ (k : Nat) (p : Param), params[k]? = some p → tokens.length ≤ k →
        args[k]? = some (get_default p PyVal.none)) := by
  obtain ⟨na, hlen, heq, hdef⟩ :=
    parseLoop_positional_split params [] tokens funcName 0 [] [] hpos
      (by simpa using htr)
  rw [List.append_nil] at heq
  refine ⟨na, hlen, ?_, ?_⟩
  · unfold parse_arguments
    rw [show (ctxParam :: params).drop 1 = params from rfl, heq, parseLoop_nil]
    simp
  · intro k p hk hge
    exact hdef k p hk (by omega)

theorem token_exhaustion_defaults_witness :
    ∃ args, args.length = 2 ∧
      parse_arguments (ctxParam :: [plainParam, plainDefaultParam]) ["x"] "w"
        = Except.ok (args, []) ∧
      (∀ (k : Nat) (p : Param), [plainParam, plainDefaultParam][k]? = some p →
        (["x"] : List String).length ≤ k →
        args[k]? = some (get_default p PyVal.none)) :=
  token_exhaustion_defaults [plainParam, plainDefaultParam] ["x"] "w"
    (by decide)
    (by
      intro k p tok hp ht
      cases k with
      | zero =>
        obtain rfl : plainParam = p := by simpa using hp
        exact ⟨PyVal.str tok, rfl⟩
      | succ k1 =>
        cases k1 with
        | zero =>
          obtain rfl : plainDefaultParam = p := by simpa using hp
          exact ⟨PyVal.str tok, rfl⟩
        | succ k2 => simp at hp)

/-- C5 (confirmed).  A keyword-only parameter is bound to all tokens
not consumed by the preceding positional parameters, joined with single
spaces (and, in the source, `strip`ped — a no-op for tokenizer output,
which carries no surrounding whitespace, as the last conjunct states);
the loop `break`s there, so the parameters declared after it — `post`
is arbitrary and absent from the result — consume no token, and the
keyword map holds exactly this one entry. -/
theorem keyword_only_consumes_rest (pre : List Param) (kwp : Param)
    (post : List Param) (tokens : List String) (funcName : String)
    (hpos : ∀ p ∈ pre,
      p.kind = ParamKind.positionalOrKeyword ∨ p.kind = ParamKind.positionalOnly)
    (hkw : kwp.kind = ParamKind.keywordOnly)
    (htr : ∀ (k : Nat) (p : Param) (tok : String), pre[k]? = some p → tokens[k]? = some tok →
      ∃ v, transform p tok = Except.ok v) :
    ∃ args, args.length = pre.length ∧
      parse_arguments (ctxParam :: (pre ++ kwp :: post)) tokens funcName
        = Except.ok (args,
            [(kwp.name, PyVal.str (pyStrip (pyJoinSpace (tokens.drop pre.length))))]) ∧
      (pyStrip (pyJoinSpace (tokens.drop pre.length))
          = pyJoinSpace (tokens.drop pre.length) →
        parse_arguments (ctxParam :: (pre ++ kwp :: post)) tokens funcName
          = Except.ok (args,
              [(kwp.name, PyVal.str (pyJoinSpace (tokens.drop pre.length)))])) := by
  obtain ⟨na, hlen, heq, -⟩ :=
    parseLoop_positional_split pre (kwp :: post) tokens funcName 0 [] [] hpos
      (by simpa using htr)
  have hnp : ¬(kwp.kind = ParamKind.positionalOrKeyword ∨
      kwp.kind = ParamKind.positionalOnly) := by
    rw [hkw]; decide
  have hmain : parse_arguments (ctxParam :: (pre ++ kwp :: post)) tokens funcName
      = Except.ok (na,
          [(kwp.name, PyVal.str (pyStrip (pyJoinSpace (tokens.drop pre.length))))]) := by
    unfold parse_arguments
    rw [show (ctxParam :: (pre ++ kwp :: post)).drop 1 = pre ++ kwp :: post from rfl,
      heq]
    simp only [parseLoop, if_neg hnp, if_pos hkw]
    simp
  exact ⟨na, hlen, hmain, fun hs => by rw [hmain, hs]⟩

theorem keyword_only_consumes_rest_witness :
    (∃ args, args.length = ([] : List Param).length ∧
      parse_arguments (ctxParam :: ([] ++ noteParam :: [])) ["hello", "world"] "w"
        = Except.ok (args,
            [(noteParam.name,
              PyVal.str (pyStrip (pyJoinSpace ((["hello", "world"] : List String).drop
                ([] : List Param).length))))]) ∧
      (pyStrip (pyJoinSpace ((["hello", "world"] : List String).drop
            ([] : List Param).length))
          = pyJoinSpace ((["hello", "world"] : List String).drop
              ([] : List Param).length) →
        parse_arguments (ctxParam :: ([] ++ noteParam :: [])) ["hello", "world"] "w"
          = Except.ok (args,
              [(noteParam.name,
                PyVal.str (pyJoinSpace ((["hello", "world"] : List String).drop
                  ([] : List Param).length)))]))) ∧
    pyStrip (pyJoinSpace ((["hello", "world"] : List String).drop
        ([] : List Param).length))
      = pyJoinSpace ((["hello", "world"] : List String).drop ([] : List Param).length) :=
  ⟨keyword_only_consumes_rest [] noteParam [] ["hello", "world"] "w"
      (by intro p hp; cases hp) rfl
      (by intro k p tok hp ht; simp at hp),
   by decide⟩

/-- C6 (confirmed).  A signature declaring `*args` makes every
invocation fail during argument parsing — the handler never runs,
whatever the tokens are — and when the preceding conversions succeed
the raised error is `BadArgument` naming the offending parameter and
the command. -/
theorem var_positional_rejected (pre : List Param) (vp : Param) (rest : List Param)
    (tokens : List String) (funcName : String)
    (handler : List PyVal → List (String × PyVal) → PyVal)
    (hpos : ∀ p ∈ pre,
      p.kind = ParamKind.positionalOrKeyword ∨ p.kind = ParamKind.positionalOnly)
    (hvp : vp.kind = ParamKind.varPositional) :
    (∃ e, parse_arguments (ctxParam :: (pre ++ vp :: rest)) tokens funcName
        = Except.error e) ∧
    (∃ e, invoke_command (ctxParam :: (pre ++ vp :: rest)) tokens funcName handler
        = Except.error e) ∧
    ((∀ (k : Nat) (p : Param) (tok : String), pre[k]? = some p → tokens[k]? = some tok →
        ∃ v, transform p tok = Except.ok v) →
      parse_arguments (ctxParam :: (pre ++ vp :: rest)) tokens funcName
        = Except.error (PyExc.badArgument vp.name funcName)) := by
  have h1 : ¬(vp.kind = ParamKind.positionalOrKeyword ∨
      vp.kind = ParamKind.positionalOnly) := by
    rw [hvp]; decide
  have h2 : ¬(vp.kind = ParamKind.keywordOnly) := by
    rw [hvp]; decide
  have hvpstep : ∀ idx args kwargs,
      parseLoop tokens funcName (vp :: rest) idx args kwargs
        = Except.error (PyExc.badArgument vp.name funcName) := by
    intro idx args kwargs
    simp only [parseLoop, if_neg h1, if_neg h2, if_pos hvp]
  have herr : ∃ e, parse_arguments (ctxParam :: (pre ++ vp :: rest)) tokens funcName
      = Except.error e := by
    unfold parse_arguments
    rw [show (ctxParam :: (pre ++ vp :: rest)).drop 1 = pre ++ vp :: rest from rfl]
    rcases parseLoop_positional_progress pre (vp :: rest) tokens funcName 0 [] []
        hpos with ⟨e, he⟩ | ⟨na, hna⟩
    · exact ⟨e, he⟩
    · exact ⟨_, by rw [hna, hvpstep]⟩
  refine ⟨herr, ?_, ?_⟩
  · obtain ⟨e, he⟩ := herr
    exact ⟨e, by unfold invoke_command; rw [he]⟩
  · intro htr
    obtain ⟨na, hlen, heq, -⟩ :=
      parseLoop_positional_split pre (vp :: rest) tokens funcName 0 [] [] hpos
        (by simpa using htr)
    unfold parse_arguments
    rw [show (ctxParam :: (pre ++ vp :: rest)).drop 1 = pre ++ vp :: rest from rfl,
      heq, hvpstep]

theorem var_positional_rejected_witness :
    (∃ e, parse_arguments (ctxParam :: ([] ++ varArgsParam :: [])) [] "test"
        = Except.error e) ∧
    (∃ e, invoke_command (ctxParam :: ([] ++ varArgsParam :: [])) [] "test"
        (fun _ _ => PyVal.none) = Except.error e) ∧
    ((∀ (k : Nat) (p : Param) (tok : String), ([] : List Param)[k]? = some p →
        ([] : List String)[k]? = some tok → ∃ v, transform p tok = Except.ok v) →
      parse_arguments (ctxParam :: ([] ++ varArgsParam :: [])) [] "test"
        = Except.error (PyExc.badArgument varArgsParam.name "test")) :=
  var_positional_rejected [] varArgsParam [] [] "test" (fun _ _ => PyVal.none)
    (by intro p hp; cases hp) rfl

end Anjani
